import Mathlib

/-!
Verification of the chatserver package (evodevo/sse_chat).

The development shallowly embeds the Go sources:
  * `message.go`   — the `Message` value and its SSE wire serialization;
  * `topic.go`     — a `Topic` is a named map of subscribed clients
                     (Go `map[*Client]bool`), here an association list
                     from client ids to the stored boolean;
  * `client.go`    — a `Client` holds its topic name, a delivery channel
                     and an expiry timer; the channel is modelled by the
                     list of delivered messages plus a count of executed
                     `close` effects, the timer by a presence flag plus a
                     count of `Stop` calls;
  * `server.go`    — the coordinator owning the topic registry, the
                     message-id counter and the event handlers
                     `onClientConnected`, `onClientDisconnected`,
                     `onClientTimeout`, `onServerShutdown`.

Go maps are modelled as association lists with `mapGet` (first match),
`mapDel` (remove every binding of the key) and
`mapSet m k v = mapDel m k ++ [(k, v)]`; starting from the empty map these
agree with Go map semantics. Real time, logging and HTTP transport are out
of scope; the timer duration and the elapsed-seconds value reported by the
timeout handler enter as explicit parameters.
-/

/-! ### Association-list maps (model of Go maps) -/

def mapGet {K V : Type} [DecidableEq K] : List (K × V) → K → Option V
  | [], _ => none
  | (k₀, v₀) :: rest, k => if k₀ = k then some v₀ else mapGet rest k

def mapDel {K V : Type} [DecidableEq K] : List (K × V) → K → List (K × V)
  | [], _ => []
  | (k₀, v₀) :: rest, k =>
      if k₀ = k then mapDel rest k else (k₀, v₀) :: mapDel rest k

def mapSet {K V : Type} [DecidableEq K] (m : List (K × V)) (k : K) (v : V) :
    List (K × V) :=
  mapDel m k ++ [(k, v)]

theorem mapGet_del_self {K V : Type} [DecidableEq K]
    (m : List (K × V)) (k : K) : mapGet (mapDel m k) k = none := by
  induction m with
  | nil => rfl
  | cons p rest ih =>
      obtain ⟨k₀, v₀⟩ := p
      by_cases h : k₀ = k <;> simp [mapDel, mapGet, h, ih]

theorem mapGet_del_ne {K V : Type} [DecidableEq K]
    (m : List (K × V)) (k k₂ : K) (h : k₂ ≠ k) :
    mapGet (mapDel m k) k₂ = mapGet m k₂ := by
  induction m with
  | nil => rfl
  | cons p rest ih =>
      obtain ⟨k₀, v₀⟩ := p
      by_cases h₀ : k₀ = k
      · have hne : ¬ (k₀ = k₂) := fun hc => h (by rw [← hc, h₀])
        simp [mapDel, mapGet, h₀, hne, Ne.symm h, ih]
      · by_cases h₂ : k₀ = k₂ <;> simp [mapDel, mapGet, h₀, h₂, h, ih]

theorem mapGet_append {K V : Type} [DecidableEq K]
    (a b : List (K × V)) (k : K) :
    mapGet (a ++ b) k = ((mapGet a k).orElse (fun _ => mapGet b k)) := by
  induction a with
  | nil => simp [mapGet, Option.orElse]
  | cons p rest ih =>
      obtain ⟨k₀, v₀⟩ := p
      by_cases h : k₀ = k <;> simp [mapGet, h, ih, Option.orElse]

theorem mapGet_set_self {K V : Type} [DecidableEq K]
    (m : List (K × V)) (k : K) (v : V) :
    mapGet (mapSet m k v) k = some v := by
  simp [mapSet, mapGet_append, mapGet_del_self, mapGet, Option.orElse]

theorem mapGet_set_ne {K V : Type} [DecidableEq K]
    (m : List (K × V)) (k k₂ : K) (v : V) (h : k₂ ≠ k) :
    mapGet (mapSet m k v) k₂ = mapGet m k₂ := by
  have hne : ¬ (k = k₂) := fun hc => h hc.symm
  simp [mapSet, mapGet_append, mapGet_del_ne m k k₂ h, mapGet, hne,
    Option.orElse]
  cases mapGet m k₂ <;> rfl

theorem mapDel_del_self {K V : Type} [DecidableEq K]
    (m : List (K × V)) (k : K) : mapDel (mapDel m k) k = mapDel m k := by
  induction m with
  | nil => rfl
  | cons p rest ih =>
      obtain ⟨k₀, v₀⟩ := p
      by_cases h : k₀ = k <;> simp [mapDel, h, ih]

theorem mapDel_append {K V : Type} [DecidableEq K]
    (a b : List (K × V)) (k : K) :
    mapDel (a ++ b) k = mapDel a k ++ mapDel b k := by
  induction a with
  | nil => rfl
  | cons p rest ih =>
      obtain ⟨k₀, v₀⟩ := p
      by_cases h : k₀ = k <;> simp [mapDel, h, ih]

theorem mapDel_set_self {K V : Type} [DecidableEq K]
    (m : List (K × V)) (k : K) (v : V) :
    mapDel (mapSet m k v) k = mapDel m k := by
  simp [mapSet, mapDel_append, mapDel_del_self, mapDel]

theorem mapDel_eq_self_of_get_none {K V : Type} [DecidableEq K]
    (m : List (K × V)) (k : K) (h : mapGet m k = none) :
    mapDel m k = m := by
  induction m with
  | nil => rfl
  | cons p rest ih =>
      obtain ⟨k₀, v₀⟩ := p
      by_cases h₀ : k₀ = k
      · simp [mapGet, h₀] at h
      · simp [mapGet, h₀] at h
        simp [mapDel, h₀, ih h]

theorem mapSet_ne_nil {K V : Type} [DecidableEq K]
    (m : List (K × V)) (k : K) (v : V) : mapSet m k v ≠ [] := by
  simp [mapSet]

/-! ### Message (message.go) -/

/-- Message sent to a client: fields `id`, `data`, `event` of message.go. -/
structure Message where
  id : String
  data : String
  event : String
deriving DecidableEq

/-- Creates new message instance (`NewMessage`). -/
def NewMessage (id data event : String) : Message := ⟨id, data, event⟩

/-- Creates text message instance (`TextMessage`): event is the literal
`msg` in the source. -/
def TextMessage (id data : String) : Message := NewMessage id data "msg"

/-- Creates timeout message instance (`TimeoutMessage`). -/
def TimeoutMessage (id data : String) : Message := NewMessage id data "timeout"

/-- Go `strings.Replace(s, "\n", repl, -1)` for the fixed one-character
pattern `"\n"`: every newline character is replaced by `repl`. -/
def replaceNewlinesList (repl : List Char) : List Char → List Char
  | [] => []
  | c :: rest =>
      (if c = '\n' then repl else [c]) ++ replaceNewlinesList repl rest

def replaceNewlines (s repl : String) : String :=
  ⟨replaceNewlinesList repl.data s.data⟩

/-- Message.Serialize of message.go: an `id:` line when id is non-empty,
an `event:` line when event is non-empty, a `data:` section when data is
non-empty (every interior newline replaced by a newline plus the next
`data: ` tag, via `strings.Replace`), then one blank line. -/
def Message.Serialize (m : Message) : String :=
  (if m.id.length > 0 then "id: " ++ m.id ++ "\n" else "") ++
  ((if m.event.length > 0 then "event: " ++ m.event ++ "\n" else "") ++
   ((if m.data.length > 0 then
       "data: " ++ replaceNewlines m.data "\ndata: " ++ "\n"
     else "") ++ "\n"))

/-- Splitting a character list at newline characters; always returns at
least one (possibly empty) line. -/
def splitLinesList : List Char → List (List Char)
  | [] => [[]]
  | c :: rest =>
      if c = '\n' then [] :: splitLinesList rest
      else
        match splitLinesList rest with
        | [] => [[c]]
        | l :: ls => (c :: l) :: ls

/-- Serialization as the specification words it: the payload is split on
line breaks and each line is re-prefixed with `data: ` and terminated by a
newline; id and event lines appear when non-empty; one blank line ends the
block. -/
def SerializeSpec (m : Message) : String :=
  (if m.id ≠ "" then "id: " ++ m.id ++ "\n" else "") ++
  ((if m.event ≠ "" then "event: " ++ m.event ++ "\n" else "") ++
   ((if m.data ≠ "" then
       ⟨((splitLinesList m.data.data).map
           (fun l => ("data: ").data ++ l ++ ['\n'])).flatten⟩
     else "") ++ "\n"))

theorem splitLinesList_ne_nil (l : List Char) : splitLinesList l ≠ [] := by
  cases l with
  | nil => simp [splitLinesList]
  | cons c rest =>
      by_cases h : c = '\n'
      · simp [splitLinesList, h]
      · simp only [splitLinesList, h, if_false]
        cases splitLinesList rest <;> simp

theorem replaceNewlinesList_cons (repl : List Char) (c : Char)
    (rest : List Char) :
    replaceNewlinesList repl (c :: rest) =
      (if c = '\n' then repl else [c]) ++ replaceNewlinesList repl rest := rfl

theorem splitLinesList_cons_nl (rest : List Char) :
    splitLinesList ('\n' :: rest) = [] :: splitLinesList rest := by
  simp [splitLinesList]

theorem splitLinesList_cons_ne (c : Char) (rest : List Char) (h : c ≠ '\n')
    (ln : List Char) (ls : List (List Char))
    (hr : splitLinesList rest = ln :: ls) :
    splitLinesList (c :: rest) = (c :: ln) :: ls := by
  simp [splitLinesList, h, hr]

/-- Replacing every newline by newline-plus-tag, then wrapping with the tag
in front and a newline behind, is the same as splitting into lines and
tagging every line. -/
theorem replace_eq_split_join (ds : List Char) (l : List Char) :
    ds ++ replaceNewlinesList ('\n' :: ds) l ++ ['\n'] =
      ((splitLinesList l).map (fun ln => ds ++ ln ++ ['\n'])).flatten := by
  induction l with
  | nil => simp [replaceNewlinesList, splitLinesList]
  | cons c rest ih =>
      by_cases h : c = '\n'
      · subst h
        rw [replaceNewlinesList_cons, if_pos rfl, splitLinesList_cons_nl]
        simp only [List.map_cons, List.flatten_cons, ← ih]
        simp
      · obtain ⟨ln, ls, hr⟩ : ∃ ln ls, splitLinesList rest = ln :: ls := by
          cases hsp : splitLinesList rest with
          | nil => exact absurd hsp (splitLinesList_ne_nil rest)
          | cons a b => exact ⟨a, b, rfl⟩
        have ih₂ : ds ++ (replaceNewlinesList ('\n' :: ds) rest ++ ['\n']) =
            ds ++ (ln ++ (['\n'] ++
              ((ls.map (fun x => ds ++ x ++ ['\n'])).flatten))) := by
          have h3 := ih
          rw [hr] at h3
          simpa [List.append_assoc] using h3
        have hcancel := List.append_cancel_left ih₂
        rw [replaceNewlinesList_cons, if_neg h,
          splitLinesList_cons_ne c rest h ln ls hr]
        simp only [List.map_cons, List.flatten_cons]
        have hre : ds ++ ([c] ++ replaceNewlinesList ('\n' :: ds) rest) ++ ['\n'] =
            ds ++ [c] ++ (replaceNewlinesList ('\n' :: ds) rest ++ ['\n']) := by
          simp
        rw [hre, hcancel]
        simp

theorem length_pos_iff_ne_empty (s : String) :
    (s.length > 0) ↔ s ≠ "" := by
  obtain ⟨l⟩ := s
  cases l <;> simp [String.length, String.ext_iff]

/-- The implemented serialization agrees with the specification-worded one
on every message. -/
theorem Serialize_eq_spec (m : Message) : m.Serialize = SerializeSpec m := by
  obtain ⟨mid, mdata, mevent⟩ := m
  simp only [Message.Serialize, SerializeSpec]
  have hdata : (if ((⟨mid, mdata, mevent⟩ : Message).data.length > 0) then
        "data: " ++ replaceNewlines (⟨mid, mdata, mevent⟩ : Message).data
          ("\ndata: ") ++ "\n"
      else "") =
      (if (⟨mid, mdata, mevent⟩ : Message).data ≠ "" then
        (⟨((splitLinesList
              ((⟨mid, mdata, mevent⟩ : Message).data).data).map
            (fun l => ("data: ").data ++ l ++ ['\n'])).flatten⟩ : String)
      else "") := by
    show (if (mdata.length > 0) then
        "data: " ++ replaceNewlines mdata ("\ndata: ") ++ "\n" else "") = _
    by_cases h : mdata = ""
    · simp [h, String.length]
    · have hlen : mdata.length > 0 := (length_pos_iff_ne_empty mdata).mpr h
      rw [if_pos hlen, if_pos h]
      obtain ⟨l⟩ := mdata
      have hstep : ("data: " ++ replaceNewlines ⟨l⟩ ("\ndata: ") ++ "\n"
            : String) =
          ⟨("data: ").data ++
            replaceNewlinesList ('\n' :: ("data: ").data) l ++ ['\n']⟩ := rfl
      rw [hstep, replace_eq_split_join]
  rw [hdata]
  have hid : ((mid.length > 0) = (mid ≠ "")) := by
    simp [length_pos_iff_ne_empty]
  have hev : ((mevent.length > 0) = (mevent ≠ "")) := by
    simp [length_pos_iff_ne_empty]
  simp only [hid, hev]

/-! ### String constants used at concrete inputs -/

def strSeven : String := "7"
def strOne : String := "1"
def strEmpty : String := ""
def strMessage : String := "message"
def payloadAB : String := "a\nb"
def topicT : String := "t"
def msgX : String := "x"

/-! ### Claims C3 and C4 -/

/-- C3 counterexample: the text message with id 7 and payload a-newline-b
does not serialize to the block claimed (its event line reads `msg`, not
`message`), and a message with empty payload produces zero `data:` lines
rather than one or more. -/
theorem c3_counterexample :
    (TextMessage strSeven payloadAB).Serialize ≠
      "id: 7\nevent: message\ndata: a\ndata: b\n\n" ∧
    (NewMessage strOne strEmpty strMessage).Serialize =
      "id: 1\nevent: message\n\n" := by
  decide

/-- C3 (amended): Serialize produces, for every Message, a
blank-line-terminated block with an id line when id is non-empty, an event
line when event is non-empty, and — when the payload is non-empty — one or
more data lines obtained by splitting the payload on line breaks and
re-prefixing each line (embedded blank lines preserved as empty data
lines); the text Message with id 7 and payload a-newline-b serializes to
exactly the block whose event line reads `msg`. -/
theorem c3_serialize_format :
    (∀ m : Message, m.Serialize = SerializeSpec m) ∧
    (TextMessage strSeven payloadAB).Serialize =
      "id: 7\nevent: msg\ndata: a\ndata: b\n\n" :=
  ⟨Serialize_eq_spec, by decide⟩

/-- C4 counterexample: the Message produced for a publish carries event
`msg`, not `message`. -/
theorem c4_counterexample : (TextMessage strOne msgX).event ≠ strMessage := by
  decide

/-- C4 (amended): the constructor used for a publish yields event `msg`
and the constructor used for a timeout notification yields event
`timeout`. -/
theorem c4_event_kinds : ∀ id data : String,
    (TextMessage id data).event = "msg" ∧
    (TimeoutMessage id data).event = "timeout" :=
  fun _ _ => ⟨rfl, rfl⟩

/-! ### Client (client.go, the revision with the expiry timer) -/

abbrev ClientId := Nat

/-- Client connected to the chat server. The Go struct holds the topic
name, the connection timestamp (real time, not modelled), the delivery
channel `messages` and the expiry `timer`. The channel is modelled by the
ordered list of messages sent on it plus the number of executed
`close(c.messages)` effects (a second close is a runtime panic in Go); the
timer by a presence flag (`timer != nil`) plus the number of executed
`timer.Stop()` calls. -/
structure ClientState where
  topic : String
  inbox : List Message
  closeCount : Nat
  hasTimer : Bool
  timerStops : Nat
deriving DecidableEq

/-- Creates new client instance (`NewClient`): empty channel, nil timer. -/
def NewClient (topic : String) : ClientState :=
  { topic := topic, inbox := [], closeCount := 0,
    hasTimer := false, timerStops := 0 }

/-- Client.SendMessage: `c.messages <- message`. -/
def clientSendMessage (cs : ClientState) (m : Message) : ClientState :=
  { cs with inbox := cs.inbox ++ [m] }

/-- Client.Unsubscribe of client.go: stops the timer when one is set, then
unconditionally executes `close(c.messages)`. -/
def clientUnsubscribe (cs : ClientState) : ClientState :=
  { cs with
      timerStops := if cs.hasTimer then cs.timerStops + 1 else cs.timerStops,
      closeCount := cs.closeCount + 1 }

/-- Modelled from the spec: `Client.SetTimeoutHandler` is called by
handleGetMessages (server.go line 82) but is absent from the sources; per
the spec it arms the one-shot expiry timer of the client for the fixed
connection-timeout duration, firing the given callback once when it
expires. Here it records that the timer is armed. -/
def SetTimeoutHandler (cs : ClientState) : ClientState :=
  { cs with hasTimer := true }

/-- Heap of all constructed clients, keyed by an abstract identity that
stands for the Go pointer. -/
abbrev Heap := List (ClientId × ClientState)

/-- Mutation of one client object through its pointer. -/
def heapUpdate (h : Heap) (cid : ClientId) (f : ClientState → ClientState) :
    Heap :=
  match mapGet h cid with
  | some cs => mapSet h cid (f cs)
  | none => h

/-! ### Topic (topic.go) -/

/-- The subscriber map of one topic: Go `map[*Client]bool`. -/
abbrev TopicClients := List (ClientId × Bool)

/-- Topic.Subscribe: `t.clients[client] = true`. -/
def topicSubscribe (tc : TopicClients) (cid : ClientId) : TopicClients :=
  mapSet tc cid true

/-- Topic.Unsubscribe, the subscriber-set part: `t.clients[client] = false`
followed by `delete(t.clients, client)`. -/
def topicUnsubscribe (tc : TopicClients) (cid : ClientId) : TopicClients :=
  mapDel (mapSet tc cid false) cid

/-- Topic.Unsubscribe as a whole (message.go lines 84-91): the transient
false entry is deleted from the subscriber map, then `client.Unsubscribe()`
stops the timer and closes the delivery channel of the client - with no
guard on whether the client was a member. -/
def topicUnsubscribeOp (tc : TopicClients) (cid : ClientId) (h : Heap) :
    TopicClients × Heap :=
  (topicUnsubscribe tc cid, heapUpdate h cid clientUnsubscribe)

/-- Topic.SendMessage: under read lock, every client whose stored flag is
true receives the message on its channel. -/
def topicSendMessage (h : Heap) (tc : TopicClients) (m : Message) : Heap :=
  tc.foldl
    (fun acc p =>
      if p.2 then heapUpdate acc p.1 (fun cs => clientSendMessage cs m)
      else acc) h

/-- Topic.Destroy: `t.Unsubscribe(client)` for every client in the map;
afterwards the subscriber map is empty and every listed client has had its
channel closed. Only the client-side effects are returned (the topic object
is discarded by the caller). -/
def topicDestroyClients (h : Heap) (tc : TopicClients) : Heap :=
  tc.foldl (fun acc p => heapUpdate acc p.1 clientUnsubscribe) h

theorem topicUnsubscribe_eq_del (tc : TopicClients) (cid : ClientId) :
    topicUnsubscribe tc cid = mapDel tc cid := by
  simp [topicUnsubscribe, mapDel_set_self]

/-! ### Server (server.go) -/

/-- Fixed connection timeout in seconds (server.go line 16). -/
def connectionTimeoutSec : Nat := 30

/-- Server state: the topic registry (name to subscriber map), the heap of
client objects, the message-id counter `lastMessageId` (0 in NewServer) and
whether `onServerShutdown` has run (after which the clientConnected,
clientDisconnected and serverShutdown channels are closed and the listen
loop has returned). -/
structure ServerState where
  topics : List (String × TopicClients)
  clients : Heap
  lastMessageId : Nat
  isShutdown : Bool
deriving DecidableEq

/-- NewServer: empty registry, id counter 0, listen loop running. -/
def freshServer : ServerState :=
  { topics := [], clients := [], lastMessageId := 0, isShutdown := false }

/-- The topic name of a client object (`c.topic`). A Go client pointer
always dereferences; an id absent from the heap yields the empty name. -/
def clientTopic (s : ServerState) (cid : ClientId) : String :=
  match mapGet s.clients cid with
  | some cs => cs.topic
  | none => ""

/-- Server.getTopic. -/
def getTopic (s : ServerState) (name : String) : Option TopicClients :=
  mapGet s.topics name

/-- Server.generateMessageId: increments `lastMessageId` and returns it.
The source takes the read lock only, so concurrent calls race; the model is
the sequential execution. -/
def generateMessageId (s : ServerState) : Nat × ServerState :=
  (s.lastMessageId + 1, { s with lastMessageId := s.lastMessageId + 1 })

/-- Server.onClientConnected (server.go lines 218-227): look the topic up
by the topic name of the client, create it when absent (`createTopic`
registers an empty topic), then `topic.Subscribe(c)`. -/
def onClientConnected (s : ServerState) (cid : ClientId) : ServerState :=
  match getTopic s (clientTopic s cid) with
  | some tc =>
      { s with topics :=
          mapSet s.topics (clientTopic s cid) (topicSubscribe tc cid) }
  | none =>
      { s with topics :=
          (mapSet (mapSet s.topics (clientTopic s cid) [])
            (clientTopic s cid) (topicSubscribe [] cid)) }

/-- Server.onClientDisconnected (server.go lines 230-240): when the topic
of the client exists, `topic.Unsubscribe(c)` (which always closes the
channel of the client), then, when the topic has no subscribers left,
`destroyTopic` removes it from the registry and calls `topic.Destroy()` on
the now-empty subscriber map. When the topic does not exist, nothing
happens. -/
def onClientDisconnected (s : ServerState) (cid : ClientId) : ServerState :=
  match getTopic s (clientTopic s cid) with
  | some tc =>
      if (topicUnsubscribe tc cid).length > 0 then
        { s with
            topics := (mapSet s.topics (clientTopic s cid)
              (topicUnsubscribe tc cid)),
            clients := heapUpdate s.clients cid clientUnsubscribe }
      else
        { s with
            topics := (mapDel (mapSet s.topics (clientTopic s cid)
              (topicUnsubscribe tc cid)) (clientTopic s cid)),
            clients := (topicDestroyClients
              (heapUpdate s.clients cid clientUnsubscribe)
              (topicUnsubscribe tc cid)) }
  | none => s

/-- Server.sendToTopic (server.go lines 138-146): when the topic exists the
message is broadcast to its subscribers, otherwise it is logged as having
no subscriptions and dropped. -/
def sendToTopic (s : ServerState) (tname : String) (m : Message) :
    ServerState :=
  match getTopic s tname with
  | some tc => { s with clients := topicSendMessage s.clients tc m }
  | none => s

/-- Server.handlePostMessage (server.go lines 108-135), the Publish entry
point after request parsing: allocate the next message id first, then
build the text Message and hand it to sendToTopic. -/
def handlePostMessage (s : ServerState) (tname payload : String) :
    ServerState :=
  sendToTopic (generateMessageId s).2 tname
    (TextMessage (toString (generateMessageId s).1) payload)

/-- Server.onClientTimeout (server.go lines 243-252): invoked when the
expiry timer of the client fires; `elapsedSec` is the connected duration
rounded to whole seconds (`math.RoundToEven`, real time - a parameter
here). A timeout Message carrying a fresh id and the payload
`<elapsed>s` is sent to the client directly, then the client is pushed
onto the clientDisconnected channel, which the listen loop hands to
onClientDisconnected. -/
def timeoutDeliver (s : ServerState) (cid : ClientId) (elapsedSec : Nat) :
    ServerState :=
  { s with
      lastMessageId := (generateMessageId s).1,
      clients := heapUpdate s.clients cid
        (fun cs => clientSendMessage cs
          (TimeoutMessage (toString (generateMessageId s).1)
            (toString elapsedSec ++ "s"))) }

def onClientTimeout (s : ServerState) (cid : ClientId) (elapsedSec : Nat) :
    ServerState :=
  onClientDisconnected (timeoutDeliver s cid elapsedSec) cid

/-- Server.onServerShutdown (server.go lines 255-262): destroyTopics
removes every topic from the registry and calls `Destroy` on it (closing
the channel of every subscriber), then the three server channels are
closed, so any later send on them panics. -/
def onServerShutdown (s : ServerState) : ServerState :=
  { s with
      topics := [],
      clients := s.topics.foldl (fun h e => topicDestroyClients h e.2) s.clients,
      isShutdown := true }

/-- The subscription prefix of handleGetMessages (server.go lines 75-84):
construct the Client, send it on the clientConnected channel (the listen
loop runs onClientConnected), then arm the expiry timer via
SetTimeoutHandler. -/
def connectClient (s : ServerState) (cid : ClientId) (tname : String) :
    ServerState :=
  let s₁ := { s with clients := mapSet s.clients cid (NewClient tname) }
  let s₂ := onClientConnected s₁ cid
  { s₂ with clients := heapUpdate s₂.clients cid SetTimeoutHandler }

/-- The same subscription path seen with Go channel semantics: after
Shutdown the clientConnected channel is closed, and the send
`s.clientConnected <- client` panics (modelled as `none`). -/
def connectReq (s : ServerState) (cid : ClientId) (tname : String) :
    Option ServerState :=
  if s.isShutdown then none else some (connectClient s cid tname)

/-- The Publish path seen from the transport layer: handlePostMessage runs
on the request thread and touches no channel to the listen loop, so it
cannot panic, even after Shutdown. -/
def publishReq (s : ServerState) (tname payload : String) :
    Option ServerState :=
  some (handlePostMessage s tname payload)

/-- SubscriptionsCount of the topic of the given name, zero when the topic
is not registered. -/
def subCount (s : ServerState) (name : String) : Nat :=
  match getTopic s name with
  | some tc => tc.length
  | none => 0

def closeCountOf (h : Heap) (cid : ClientId) : Nat :=
  match mapGet h cid with
  | some cs => cs.closeCount
  | none => 0

def inboxOf (h : Heap) (cid : ClientId) : List Message :=
  match mapGet h cid with
  | some cs => cs.inbox
  | none => []

/-! ### Claim C2: double disconnect -/

/-- Two clients subscribe to the same topic; the first is then disconnected
twice, as in the race between the timeout firing and the request context
being cancelled (both paths push the same client onto the
clientDisconnected channel). -/
def c2Trace : ServerState :=
  onClientDisconnected
    (onClientDisconnected
      (connectClient (connectClient freshServer 0 topicT) 1 topicT) 0) 0

/-- C2: running the disconnect removal sequence twice for the same client
while its topic still has another subscriber executes the
`close(c.messages)` effect twice (in Go the second close panics: close of
closed channel) and stops the timer twice, not once; the topic keeps its
remaining subscriber. -/
theorem c2_double_close_fault :
    closeCountOf c2Trace.clients 0 = 2 ∧
    (match mapGet c2Trace.clients 0 with
      | some cs => cs.timerStops
      | none => 0) = 2 ∧
    subCount c2Trace topicT = 1 := by
  decide

/-! ### Claim C10: Unsubscribe of a non-member -/

/-- C10: for a client that is not in the subscriber map of the topic,
Topic.Unsubscribe leaves the map unchanged (the transient false entry is
deleted at once) yet still stops the armed expiry timer and closes the
delivery channel of the client: the close is unconditional. -/
theorem c10_unsubscribe_nonmember (tc : TopicClients) (cid : ClientId)
    (hp : Heap) (cs : ClientState) (hmem : mapGet tc cid = none)
    (hcs : mapGet hp cid = some cs) (ht : cs.hasTimer = true) :
    (topicUnsubscribeOp tc cid hp).1 = tc ∧
    mapGet (topicUnsubscribeOp tc cid hp).2 cid =
      some { cs with closeCount := cs.closeCount + 1,
                     timerStops := cs.timerStops + 1 } := by
  constructor
  · show topicUnsubscribe tc cid = tc
    rw [topicUnsubscribe_eq_del, mapDel_eq_self_of_get_none tc cid hmem]
  · show mapGet (heapUpdate hp cid clientUnsubscribe) cid = _
    simp [heapUpdate, hcs, mapGet_set_self, clientUnsubscribe, ht]

def c10tc : TopicClients := [(1, true)]
def c10cs : ClientState :=
  { topic := topicT, inbox := [], closeCount := 0,
    hasTimer := true, timerStops := 0 }
def c10heap : Heap := [(0, c10cs)]

theorem c10_witness :
    mapGet c10tc 0 = none ∧ mapGet c10heap 0 = some c10cs ∧
    c10cs.hasTimer = true ∧
    ((topicUnsubscribeOp c10tc 0 c10heap).1 = c10tc ∧
     mapGet (topicUnsubscribeOp c10tc 0 c10heap).2 0 =
       some { c10cs with closeCount := c10cs.closeCount + 1,
                         timerStops := c10cs.timerStops + 1 }) :=
  ⟨by decide, by decide, by decide,
   c10_unsubscribe_nonmember c10tc 0 c10heap c10cs (by decide) (by decide)
     (by decide)⟩

/-! ### Claim C1: registry membership versus subscriber count -/

inductive TopicOp where
  | connect (cid : ClientId)
  | disconnect (cid : ClientId)
deriving DecidableEq

/-- A sequence of Connect and Disconnect operations, all on the same topic
name, dispatched the way the listen loop does. -/
def runOps (T : String) (s : ServerState) : List TopicOp → ServerState
  | [] => s
  | TopicOp.connect cid :: rest => runOps T (connectClient s cid T) rest
  | TopicOp.disconnect cid :: rest =>
      runOps T (onClientDisconnected s cid) rest

/-- Every registered topic has a non-empty subscriber map. -/
def RegistryNonempty (s : ServerState) : Prop :=
  ∀ name tc, mapGet s.topics name = some tc → tc ≠ []

theorem registryNonempty_fresh : RegistryNonempty freshServer := by
  intro name tc h
  simp [freshServer, mapGet] at h

theorem registryNonempty_onClientConnected (s : ServerState) (cid : ClientId)
    (hinv : RegistryNonempty s) :
    RegistryNonempty (onClientConnected s cid) := by
  intro name tc h
  unfold onClientConnected at h
  cases hg : getTopic s (clientTopic s cid) with
  | some tc₀ =>
      rw [hg] at h
      dsimp only at h
      by_cases hn : name = clientTopic s cid
      · subst hn
        rw [mapGet_set_self] at h
        cases h
        exact mapSet_ne_nil _ _ _
      · rw [mapGet_set_ne _ _ _ _ hn] at h
        exact hinv name tc h
  | none =>
      rw [hg] at h
      dsimp only at h
      by_cases hn : name = clientTopic s cid
      · subst hn
        rw [mapGet_set_self] at h
        cases h
        exact mapSet_ne_nil _ _ _
      · rw [mapGet_set_ne _ _ _ _ hn, mapGet_set_ne _ _ _ _ hn] at h
        exact hinv name tc h

theorem registryNonempty_onClientDisconnected (s : ServerState)
    (cid : ClientId) (hinv : RegistryNonempty s) :
    RegistryNonempty (onClientDisconnected s cid) := by
  intro name tc h
  unfold onClientDisconnected at h
  cases hg : getTopic s (clientTopic s cid) with
  | none =>
      rw [hg] at h
      exact hinv name tc h
  | some tc₀ =>
      rw [hg] at h
      dsimp only at h
      by_cases hl : (topicUnsubscribe tc₀ cid).length > 0
      · rw [if_pos hl] at h
        dsimp only at h
        by_cases hn : name = clientTopic s cid
        · subst hn
          rw [mapGet_set_self] at h
          cases h
          intro hc
          rw [hc] at hl
          exact absurd hl (by simp)
        · rw [mapGet_set_ne _ _ _ _ hn] at h
          exact hinv name tc h
      · rw [if_neg hl] at h
        dsimp only at h
        by_cases hn : name = clientTopic s cid
        · subst hn
          rw [mapGet_del_self] at h
          cases h
        · rw [mapGet_del_ne _ _ _ hn, mapGet_set_ne _ _ _ _ hn] at h
          exact hinv name tc h

theorem registryNonempty_connectClient (s : ServerState) (cid : ClientId)
    (tname : String) (hinv : RegistryNonempty s) :
    RegistryNonempty (connectClient s cid tname) := by
  intro name tc h
  have h₁ : RegistryNonempty
      { s with clients := mapSet s.clients cid (NewClient tname) } :=
    fun n tc₂ hx => hinv n tc₂ hx
  exact registryNonempty_onClientConnected _ cid h₁ name tc h

theorem registryNonempty_runOps (T : String) (ops : List TopicOp)
    (s : ServerState) (hinv : RegistryNonempty s) :
    RegistryNonempty (runOps T s ops) := by
  induction ops generalizing s with
  | nil => exact hinv
  | cons op rest ih =>
      cases op with
      | connect cid =>
          exact ih _ (registryNonempty_connectClient s cid T hinv)
      | disconnect cid =>
          exact ih _ (registryNonempty_onClientDisconnected s cid hinv)

/-- C1: over every sequence of Connect and Disconnect operations on the
same topic name, starting from a fresh server, the topic is present in the
registry exactly when its subscriber count is positive. -/
theorem c1_topic_iff_subscribers : ∀ (T : String) (ops : List TopicOp),
    (mapGet (runOps T freshServer ops).topics T).isSome ↔
      0 < subCount (runOps T freshServer ops) T := by
  intro T ops
  have hinv := registryNonempty_runOps T ops freshServer registryNonempty_fresh
  cases hg : mapGet (runOps T freshServer ops).topics T with
  | none => simp [subCount, getTopic, hg]
  | some tc =>
      have hne := hinv T tc hg
      simp [subCount, getTopic, hg, List.length_pos, hne]

/-! ### Claims C5, C7, C8: the Publish path -/

theorem lastMessageId_sendToTopic (s : ServerState) (tname : String)
    (m : Message) : (sendToTopic s tname m).lastMessageId = s.lastMessageId := by
  unfold sendToTopic
  cases hg : getTopic s tname <;> rfl

theorem lastMessageId_handlePostMessage (s : ServerState)
    (tname payload : String) :
    (handlePostMessage s tname payload).lastMessageId = s.lastMessageId + 1 := by
  unfold handlePostMessage
  rw [lastMessageId_sendToTopic]
  rfl

/-- The ids issued by a sequence of Publish calls: after each
handlePostMessage the counter equals the id that generateMessageId returned
during it (sendToTopic never touches the counter). -/
def runPublishes : ServerState → List (String × String) → List Nat
  | _, [] => []
  | s, (t, p) :: rest =>
      (handlePostMessage s t p).lastMessageId ::
        runPublishes (handlePostMessage s t p) rest

theorem runPublishes_eq_range (reqs : List (String × String))
    (s : ServerState) :
    runPublishes s reqs = List.range' (s.lastMessageId + 1) reqs.length := by
  induction reqs generalizing s with
  | nil => rfl
  | cons r rest ih =>
      obtain ⟨t, p⟩ := r
      show (handlePostMessage s t p).lastMessageId ::
          runPublishes (handlePostMessage s t p) rest = _
      rw [ih (handlePostMessage s t p), lastMessageId_handlePostMessage,
        List.length_cons]
      rfl

theorem pairwise_lt_range (a n : Nat) :
    (List.range' a n).Pairwise (· < ·) := by
  induction n generalizing a with
  | zero => exact List.Pairwise.nil
  | succ k ih =>
      refine List.Pairwise.cons ?_ (ih (a + 1))
      intro b hb
      have := (List.mem_range'_1.mp hb).1
      omega

/-- C5: the ids issued over every sequence of Publish calls from a fresh
server are exactly 1, 2, 3, ... (so they start at 1) and are pairwise
distinct and strictly increasing in issuance order. -/
theorem c5_message_ids : ∀ reqs : List (String × String),
    runPublishes freshServer reqs = List.range' 1 reqs.length ∧
    (runPublishes freshServer reqs).Pairwise (· < ·) := by
  intro reqs
  constructor
  · exact runPublishes_eq_range reqs freshServer
  · rw [runPublishes_eq_range reqs freshServer]
    exact pairwise_lt_range _ _

/-- C7: publishing to a topic name with zero current subscribers (in every
reachable state that means the name is unregistered) delivers no message
to any client and leaves the registry and every subscriber set unchanged;
the payload is dropped without error. -/
theorem c7_publish_no_subscribers (s : ServerState) (tname payload : String)
    (hinv : RegistryNonempty s) (h0 : subCount s tname = 0) :
    (handlePostMessage s tname payload).topics = s.topics ∧
    (handlePostMessage s tname payload).clients = s.clients := by
  have habs : getTopic s tname = none := by
    cases hg : getTopic s tname with
    | none => rfl
    | some tc =>
        have hne := hinv tname tc hg
        have hlen : tc.length = 0 := by
          have := h0
          rw [subCount, hg] at this
          exact this
        exact absurd (List.length_eq_zero.mp hlen) hne
  unfold handlePostMessage sendToTopic
  rw [show getTopic (generateMessageId s).2 tname = none from habs]
  exact ⟨rfl, rfl⟩

theorem c7_witness :
    RegistryNonempty freshServer ∧ subCount freshServer topicT = 0 ∧
    ((handlePostMessage freshServer topicT msgX).topics =
        freshServer.topics ∧
     (handlePostMessage freshServer topicT msgX).clients =
        freshServer.clients) :=
  ⟨registryNonempty_fresh, by decide,
   c7_publish_no_subscribers freshServer topicT msgX registryNonempty_fresh
     (by decide)⟩

/-- C8: Publish allocates the next message id before the topic lookup: the
counter advances on every call, and a Publish to an absent topic changes
nothing except the counter (the message is dropped). -/
theorem c8_id_alloc_every_publish : ∀ (s : ServerState)
    (tname payload : String),
    (handlePostMessage s tname payload).lastMessageId =
      s.lastMessageId + 1 ∧
    (getTopic s tname = none →
      handlePostMessage s tname payload =
        { s with lastMessageId := s.lastMessageId + 1 }) := by
  intro s tname payload
  refine ⟨lastMessageId_handlePostMessage s tname payload, fun habs => ?_⟩
  unfold handlePostMessage sendToTopic
  rw [show getTopic (generateMessageId s).2 tname = none from habs]
  rfl

theorem c8_witness :
    getTopic freshServer topicT = none ∧
    (handlePostMessage freshServer topicT msgX).lastMessageId =
      freshServer.lastMessageId + 1 ∧
    handlePostMessage freshServer topicT msgX =
      { freshServer with lastMessageId := freshServer.lastMessageId + 1 } :=
  ⟨by decide, (c8_id_alloc_every_publish freshServer topicT msgX).1,
   (c8_id_alloc_every_publish freshServer topicT msgX).2 (by decide)⟩

/-! ### Claim C6: the timeout path -/

theorem inboxOf_heapUpdate_unsub (hp : Heap) (k cid : ClientId) :
    inboxOf (heapUpdate hp k clientUnsubscribe) cid = inboxOf hp cid := by
  unfold heapUpdate
  cases hg : mapGet hp k with
  | none => rfl
  | some cs =>
      by_cases hk : cid = k
      · subst hk
        unfold inboxOf
        rw [mapGet_set_self, hg]
        rfl
      · unfold inboxOf
        rw [mapGet_set_ne hp k cid _ hk]

theorem inboxOf_onClientDisconnected (s : ServerState) (cid : ClientId) :
    inboxOf (onClientDisconnected s cid).clients cid =
      inboxOf s.clients cid := by
  unfold onClientDisconnected
  cases hg : getTopic s (clientTopic s cid) with
  | none => rfl
  | some tc =>
      dsimp only
      by_cases hl : (topicUnsubscribe tc cid).length > 0
      · rw [if_pos hl]
        exact inboxOf_heapUpdate_unsub s.clients cid cid
      · rw [if_neg hl]
        have htc : topicUnsubscribe tc cid = [] :=
          List.length_eq_zero.mp (Nat.eq_zero_of_not_pos hl)
        rw [htc]
        exact inboxOf_heapUpdate_unsub s.clients cid cid

/-- After onClientDisconnected, the client is not in the subscriber map
registered under its topic name (when that topic is still registered at
all). -/
theorem onClientDisconnected_removes (s : ServerState) (cid : ClientId) :
    ∀ tc₂, mapGet (onClientDisconnected s cid).topics (clientTopic s cid) =
        some tc₂ → mapGet tc₂ cid = none := by
  intro tc₂ h
  unfold onClientDisconnected at h
  cases hg : getTopic s (clientTopic s cid) with
  | none =>
      rw [hg] at h
      dsimp only at h
      rw [show mapGet s.topics (clientTopic s cid) = none from hg] at h
      exact Option.noConfusion h
  | some tc =>
      rw [hg] at h
      dsimp only at h
      by_cases hl : (topicUnsubscribe tc cid).length > 0
      · rw [if_pos hl] at h
        dsimp only at h
        rw [mapGet_set_self] at h
        cases h
        unfold topicUnsubscribe
        exact mapGet_del_self _ _
      · rw [if_neg hl] at h
        dsimp only at h
        rw [mapGet_del_self] at h
        exact Option.noConfusion h

theorem mapGet_timeoutDeliver (s : ServerState) (cid : ClientId) (e : Nat)
    (cs : ClientState) (hcs : mapGet s.clients cid = some cs) :
    mapGet (timeoutDeliver s cid e).clients cid =
      some (clientSendMessage cs
        (TimeoutMessage (toString (s.lastMessageId + 1))
          (toString e ++ "s"))) := by
  show mapGet (heapUpdate s.clients cid _) cid = _
  unfold heapUpdate
  rw [hcs, mapGet_set_self]
  rfl

/-- C6: firing the timeout handler for a connected client at the fixed
30-second mark delivers exactly one further Message to that client; it has
event `timeout` and payload `30s` (elapsed whole seconds followed by `s`),
and the client is then removed from its topic by the same removal sequence
as an explicit disconnect (the handler pushes the client onto the
clientDisconnected channel). -/
theorem c6_timeout_behavior (s : ServerState) (cid : ClientId)
    (cs : ClientState) (hcs : mapGet s.clients cid = some cs) :
    ∃ m : Message,
      m.event = "timeout" ∧
      m.data = toString connectionTimeoutSec ++ "s" ∧ m.data = "30s" ∧
      inboxOf (onClientTimeout s cid connectionTimeoutSec).clients cid =
        cs.inbox ++ [m] ∧
      onClientTimeout s cid connectionTimeoutSec =
        onClientDisconnected (timeoutDeliver s cid connectionTimeoutSec) cid ∧
      (∀ tc, mapGet (onClientTimeout s cid connectionTimeoutSec).topics
          cs.topic = some tc → mapGet tc cid = none) := by
  refine ⟨TimeoutMessage (toString (s.lastMessageId + 1))
    (toString connectionTimeoutSec ++ "s"), rfl, rfl,
    (show (toString connectionTimeoutSec ++ "s" : String) = "30s" by decide),
    ?_, rfl, ?_⟩
  · have hsend := mapGet_timeoutDeliver s cid connectionTimeoutSec cs hcs
    have h₁ : inboxOf (onClientTimeout s cid connectionTimeoutSec).clients cid
        = inboxOf (timeoutDeliver s cid connectionTimeoutSec).clients cid :=
      inboxOf_onClientDisconnected (timeoutDeliver s cid connectionTimeoutSec)
        cid
    rw [h₁]
    unfold inboxOf
    rw [hsend]
    rfl
  · intro tc htc
    have htopic : clientTopic (timeoutDeliver s cid connectionTimeoutSec) cid
        = cs.topic := by
      unfold clientTopic
      rw [mapGet_timeoutDeliver s cid connectionTimeoutSec cs hcs]
      rfl
    apply onClientDisconnected_removes
      (timeoutDeliver s cid connectionTimeoutSec) cid tc
    rw [htopic]
    exact htc

def c6s : ServerState := connectClient freshServer 0 topicT
def c6cs : ClientState :=
  { topic := topicT, inbox := [], closeCount := 0,
    hasTimer := true, timerStops := 0 }

theorem c6_witness :
    mapGet c6s.clients 0 = some c6cs ∧
    (∃ m : Message,
      m.event = "timeout" ∧
      m.data = toString connectionTimeoutSec ++ "s" ∧ m.data = "30s" ∧
      inboxOf (onClientTimeout c6s 0 connectionTimeoutSec).clients 0 =
        c6cs.inbox ++ [m] ∧
      onClientTimeout c6s 0 connectionTimeoutSec =
        onClientDisconnected (timeoutDeliver c6s 0 connectionTimeoutSec) 0 ∧
      (∀ tc, mapGet (onClientTimeout c6s 0 connectionTimeoutSec).topics
          c6cs.topic = some tc → mapGet tc 0 = none)) :=
  ⟨by decide, c6_timeout_behavior c6s 0 c6cs (by decide)⟩

/-! ### Claim C9: shutdown -/

theorem handlePostMessage_absent (s : ServerState) (tname payload : String)
    (habs : getTopic s tname = none) :
    handlePostMessage s tname payload =
      { s with lastMessageId := s.lastMessageId + 1 } := by
  unfold handlePostMessage sendToTopic
  rw [show getTopic (generateMessageId s).2 tname = none from habs]
  rfl

theorem closeCountOf_heapUpdate_unsub_ge (hp : Heap) (k cid : ClientId) :
    closeCountOf hp cid ≤
      closeCountOf (heapUpdate hp k clientUnsubscribe) cid := by
  unfold heapUpdate
  cases hg : mapGet hp k with
  | none => exact Nat.le_refl _
  | some cs =>
      by_cases hk : cid = k
      · subst hk
        unfold closeCountOf
        rw [mapGet_set_self, hg]
        show cs.closeCount ≤ (clientUnsubscribe cs).closeCount
        exact Nat.le_succ _
      · unfold closeCountOf
        rw [mapGet_set_ne hp k cid _ hk]

theorem closeCountOf_heapUpdate_unsub_self (hp : Heap) (cid : ClientId)
    (hs : (mapGet hp cid).isSome) :
    closeCountOf (heapUpdate hp cid clientUnsubscribe) cid =
      closeCountOf hp cid + 1 := by
  obtain ⟨cs, hcs⟩ := Option.isSome_iff_exists.mp hs
  have hstep : heapUpdate hp cid clientUnsubscribe =
      mapSet hp cid (clientUnsubscribe cs) := by
    unfold heapUpdate
    rw [hcs]
  rw [hstep]
  unfold closeCountOf
  rw [mapGet_set_self, hcs]
  rfl

theorem isSome_heapUpdate (hp : Heap) (k cid : ClientId)
    (f : ClientState → ClientState) (hs : (mapGet hp cid).isSome) :
    (mapGet (heapUpdate hp k f) cid).isSome := by
  unfold heapUpdate
  cases hg : mapGet hp k with
  | none => exact hs
  | some cs =>
      by_cases hk : cid = k
      · subst hk
        rw [mapGet_set_self]
        rfl
      · rw [mapGet_set_ne hp k cid _ hk]
        exact hs

theorem closeCountOf_destroy_ge (tc : TopicClients) (hp : Heap)
    (cid : ClientId) :
    closeCountOf hp cid ≤ closeCountOf (topicDestroyClients hp tc) cid := by
  induction tc generalizing hp with
  | nil => exact Nat.le_refl _
  | cons p rest ih =>
      exact Nat.le_trans (closeCountOf_heapUpdate_unsub_ge hp p.1 cid) (ih _)

theorem isSome_destroy (tc : TopicClients) (hp : Heap) (cid : ClientId)
    (hs : (mapGet hp cid).isSome) :
    (mapGet (topicDestroyClients hp tc) cid).isSome := by
  induction tc generalizing hp with
  | nil => exact hs
  | cons p rest ih =>
      exact ih _ (isSome_heapUpdate hp p.1 cid clientUnsubscribe hs)

theorem closeCountOf_destroy_succ (tc : TopicClients) (hp : Heap)
    (cid : ClientId) (flag : Bool) (hmem : mapGet tc cid = some flag)
    (hs : (mapGet hp cid).isSome) :
    closeCountOf hp cid + 1 ≤
      closeCountOf (topicDestroyClients hp tc) cid := by
  induction tc generalizing hp with
  | nil => exact absurd hmem (by simp [mapGet])
  | cons p rest ih =>
      obtain ⟨k, fl⟩ := p
      by_cases hk : k = cid
      · subst hk
        calc closeCountOf hp k + 1
            = closeCountOf (heapUpdate hp k clientUnsubscribe) k :=
              (closeCountOf_heapUpdate_unsub_self hp k hs).symm
          _ ≤ closeCountOf
              (topicDestroyClients (heapUpdate hp k clientUnsubscribe) rest)
              k := closeCountOf_destroy_ge rest _ k
      · have hmem₂ : mapGet rest cid = some flag := by
          rw [show mapGet ((k, fl) :: rest) cid =
            (if k = cid then some fl else mapGet rest cid) from rfl,
            if_neg hk] at hmem
          exact hmem
        calc closeCountOf hp cid + 1
            ≤ closeCountOf (heapUpdate hp k clientUnsubscribe) cid + 1 :=
              Nat.add_le_add_right
                (closeCountOf_heapUpdate_unsub_ge hp k cid) 1
          _ ≤ _ := ih _ hmem₂
              (isSome_heapUpdate hp k cid clientUnsubscribe hs)

theorem closeCountOf_foldl_ge (L : List (String × TopicClients)) (hp : Heap)
    (cid : ClientId) :
    closeCountOf hp cid ≤
      closeCountOf
        (L.foldl (fun acc e => topicDestroyClients acc e.2) hp) cid := by
  induction L generalizing hp with
  | nil => exact Nat.le_refl _
  | cons e rest ih =>
      exact Nat.le_trans (closeCountOf_destroy_ge e.2 hp cid) (ih _)

theorem closeCountOf_foldl_succ (L : List (String × TopicClients))
    (hp : Heap) (cid : ClientId) (name : String) (tc : TopicClients)
    (flag : Bool) (hname : mapGet L name = some tc)
    (hmem : mapGet tc cid = some flag) (hs : (mapGet hp cid).isSome) :
    closeCountOf hp cid + 1 ≤
      closeCountOf
        (L.foldl (fun acc e => topicDestroyClients acc e.2) hp) cid := by
  induction L generalizing hp with
  | nil => exact absurd hname (by simp [mapGet])
  | cons e rest ih =>
      obtain ⟨n₀, tc₀⟩ := e
      by_cases hn : n₀ = name
      · have htc : tc₀ = tc := by
          rw [show mapGet ((n₀, tc₀) :: rest) name =
            (if n₀ = name then some tc₀ else mapGet rest name) from rfl,
            if_pos hn] at hname
          cases hname
          rfl
        subst htc
        calc closeCountOf hp cid + 1
            ≤ closeCountOf (topicDestroyClients hp tc₀) cid :=
              closeCountOf_destroy_succ tc₀ hp cid flag hmem hs
          _ ≤ _ := closeCountOf_foldl_ge rest _ cid
      · have hname₂ : mapGet rest name = some tc := by
          rw [show mapGet ((n₀, tc₀) :: rest) name =
            (if n₀ = name then some tc₀ else mapGet rest name) from rfl,
            if_neg hn] at hname
          exact hname
        calc closeCountOf hp cid + 1
            ≤ closeCountOf (topicDestroyClients hp tc₀) cid + 1 :=
              Nat.add_le_add_right (closeCountOf_destroy_ge tc₀ hp cid) 1
          _ ≤ _ := ih _ hname₂ (isSome_destroy tc₀ hp cid hs)

def c9s : ServerState := connectClient freshServer 0 topicT

/-- C9 counterexample: a Connect issued after Shutdown sends the new
client on the clientConnected channel, which onServerShutdown has closed;
in Go a send on a closed channel panics, so the call crashes (modelled as
none) instead of being rejected or ignored without a crash, refuting the
claim for the Connect half. -/
theorem c9_counterexample :
    connectReq (onServerShutdown c9s) 1 topicT = none := by
  decide

/-- C9 (amended): Shutdown destroys every registered topic, leaving the
registry empty and closing the delivery channel of every subscriber (one
further close effect for every client listed in a registered topic); a
Publish issued after Shutdown is ignored (the registry stays empty, no
client receives anything, no panic), but a Connect issued after Shutdown
panics on the closed clientConnected channel rather than being rejected or
ignored. -/
theorem c9_shutdown_behavior (s : ServerState) (name : String)
    (tc : TopicClients) (cid : ClientId) (flag : Bool)
    (tname payload : String) (cid₂ : ClientId) :
    (onServerShutdown s).topics = [] ∧
    (mapGet s.topics name = some tc → mapGet tc cid = some flag →
      (mapGet s.clients cid).isSome →
      closeCountOf s.clients cid + 1 ≤
        closeCountOf (onServerShutdown s).clients cid) ∧
    (∃ s₂, publishReq (onServerShutdown s) tname payload = some s₂ ∧
      s₂.topics = [] ∧ s₂.clients = (onServerShutdown s).clients) ∧
    connectReq (onServerShutdown s) cid₂ tname = none := by
  refine ⟨rfl, ?_, ?_, rfl⟩
  · intro hname hmem hs
    exact closeCountOf_foldl_succ s.topics s.clients cid name tc flag hname
      hmem hs
  · refine ⟨handlePostMessage (onServerShutdown s) tname payload, rfl, ?_, ?_⟩
    · rw [handlePostMessage_absent (onServerShutdown s) tname payload rfl]
      rfl
    · rw [handlePostMessage_absent (onServerShutdown s) tname payload rfl]

theorem c9_witness :
    mapGet c9s.topics topicT = some [(0, true)] ∧
    mapGet [((0 : ClientId), true)] 0 = some true ∧
    (mapGet c9s.clients 0).isSome ∧
    closeCountOf c9s.clients 0 + 1 ≤
      closeCountOf (onServerShutdown c9s).clients 0 ∧
    connectReq (onServerShutdown c9s) 1 topicT = none :=
  ⟨by decide, by decide, by decide,
   (c9_shutdown_behavior c9s topicT [(0, true)] 0 true topicT msgX 1).2.1
     (by decide) (by decide) (by decide),
   (c9_shutdown_behavior c9s topicT [(0, true)] 0 true topicT msgX 1).2.2.2⟩
